import Mathlib

/-!
Verification development for the git-status core of the `starship` prompt
fork: the repository probe (`src/git.rs`) and the git-status segment
renderer (`src/modules/git_status.rs`).

The Rust code is embedded shallowly:

* `GitStatus`, `increment_git_status` and `parse_porcelain_output` are
  direct translations of `src/git.rs` (machine strings become `String`s,
  `str::lines` becomes the explicit `rustLines` below, `chars().next()`
  becomes `List.getD`).
* OS paths (`PathBuf`) are modelled as lists of components, each carrying
  a `valid` flag recording whether the component is valid UTF-8, so that
  `Path::to_str` (and the `unwrap()` applied to it in `get_status` /
  `get_hash`) can be modelled faithfully: `to_str` succeeds exactly when
  every component is valid, and `unwrap()` on a failed conversion is a
  panic, modelled with `Except Unit`.
* The external collaborators (process execution, filesystem reads,
  existence checks) are the fields of `Env`, matching the interface the
  code consumes.
* The `OnceCell` caches of `Repository` are modelled by explicit state
  passing (`RepoState`), with the third component of each call result
  counting how many underlying computations (external command
  invocations or file reads) the call performed.
-/

/-- Counts of the status categories, one field per field of the Rust
struct `GitStatus` (src/git.rs lines 7-21); `Default` derives to
all-zero, modelled by the field default values. -/
structure GitStatus where
  untracked : Nat := 0
  added : Nat := 0
  modified : Nat := 0
  renamed : Nat := 0
  deleted : Nat := 0
  stashed : Nat := 0
  unmerged : Nat := 0
  ahead : Nat := 0
  behind : Nat := 0
  diverged : Nat := 0
  conflicted : Nat := 0
  staged : Nat := 0
deriving DecidableEq, Repr

/-- Update the cumulative git status given one "short format" letter;
translation of `increment_git_status` (src/git.rs lines 150-161). The
Rust `match` on the letter becomes an if-chain; the wildcard arm leaves
the status unchanged. -/
def increment_git_status (vcs_status : GitStatus) (letter : Char) : GitStatus :=
  if letter = 'A' then { vcs_status with added := vcs_status.added + 1 }
  else if letter = 'M' then { vcs_status with modified := vcs_status.modified + 1 }
  else if letter = 'D' then { vcs_status with deleted := vcs_status.deleted + 1 }
  else if letter = 'R' then { vcs_status with renamed := vcs_status.renamed + 1 }
  else if letter = 'C' then { vcs_status with added := vcs_status.added + 1 }
  else if letter = 'U' then { vcs_status with modified := vcs_status.modified + 1 }
  else if letter = '?' then { vcs_status with untracked := vcs_status.untracked + 1 }
  else vcs_status

/-- Model of Rust `str::lines` on a character list: split at `'\n'`,
drop a `'\r'` that immediately precedes a `'\n'`, and do not produce a
final empty line for a trailing newline.  `acc` holds the characters of
the current line in reverse. -/
def linesAux (acc : List Char) : List Char → List (List Char)
  | [] => if acc = [] then [] else [acc.reverse]
  | '\n' :: rest =>
      (match acc with
       | '\r' :: acc2 => acc2.reverse
       | _ => acc.reverse) :: linesAux [] rest
  | c :: rest => linesAux (c :: acc) rest

/-- The lines of a string, with Rust `str::lines` semantics. -/
def rustLines (s : String) : List (List Char) :=
  linesAux [] s.data

/-- The body of the `for_each` closure in `parse_porcelain_output`
(src/git.rs lines 127-143): extract the first two characters of the
line (missing characters default to `' '`, as `unwrap_or(' ')` does),
count the line as conflicted when they are equal, and otherwise feed
`'S'` and the second character through `increment_git_status`. -/
def parse_line_step (vcs_status : GitStatus) (line : List Char) : GitStatus :=
  let letter_codes := (line.getD 0 ' ', line.getD 1 ' ')
  if letter_codes.1 = letter_codes.2 then
    { vcs_status with conflicted := vcs_status.conflicted + 1 }
  else
    increment_git_status (increment_git_status vcs_status 'S') letter_codes.2

/-- Parse git status values from `git status --porcelain`; translation
of `parse_porcelain_output` (src/git.rs lines 122-146). -/
def parse_porcelain_output (porcelain : String) : GitStatus :=
  (rustLines porcelain).foldl parse_line_step {}

/-- One component of an OS path. Rust `PathBuf` components are OS
strings that need not be valid UTF-8; `valid` records whether this one
is, and `text` is its textual content (the stand-in for its bytes). -/
structure OsStr where
  valid : Bool
  text : String
deriving DecidableEq, Repr

/-- An OS path, as its list of components; `[]` is the filesystem root,
and `Path::parent` drops the last component (`none` at the root). -/
abbrev OsPath := List OsStr

/-- A valid-UTF-8 path component. -/
def osStr (s : String) : OsStr := { valid := true, text := s }

/-- Model of `Path::to_str`: succeeds exactly when every component is
valid UTF-8. -/
def pathToStr (p : OsPath) : Option String :=
  if p.all (fun c => c.valid) then
    some (String.intercalate "/" (p.map (fun c => c.text)))
  else none

/-- Output of an external command. Modelled from the spec: the process
collaborator (`utils::exec_cmd`, not under scrutiny here) returns, on
success, a record whose `stdout` field the probe consumes. -/
structure CmdOutput where
  stdout : String
deriving DecidableEq, Repr

/-- The external collaborators the probe consumes: process execution,
single-file reads and directory-existence checks, per the interface
used by src/git.rs. -/
structure Env where
  execCmd : String → List String → Option CmdOutput
  readFile : OsPath → Option String
  dirExists : OsPath → Bool

/-- A repository handle: metadata directory and working-tree root
(the `git_dir` / `root_dir` fields of the Rust `Repository`; the three
`OnceCell` caches are modelled separately by `RepoState`). -/
structure Repository where
  git_dir : OsPath
  root_dir : OsPath
deriving DecidableEq, Repr

/-- Translation of `Repository::scan` (src/git.rs lines 45-59): join
`".git"` onto the path; if it does not exist there is no repository,
otherwise the handle is rooted at `path`. -/
def Repository.scan (env : Env) (path : OsPath) : Option Repository :=
  if env.dirExists (path ++ [osStr ".git"]) then
    some { git_dir := path ++ [osStr ".git"], root_dir := path }
  else none

/-- Recursion worker for `Repository.discover`, structurally recursive
over the reversed component list: the tail of the reversed list is
exactly the reversal of `Path::parent`, and an empty reversed list is
the root, whose parent is `None`. -/
def Repository.discoverRev (env : Env) : List OsStr → Option Repository
  | [] => Repository.scan env []
  | c :: r =>
    match Repository.scan env (c :: r).reverse with
    | some repository => some repository
    | none => Repository.discoverRev env r

/-- Translation of `Repository::discover` (src/git.rs lines 33-43):
scan the path itself, then recurse into the parent until the root's
parent (`None`) is reached. -/
def Repository.discover (env : Env) (path : OsPath) : Option Repository :=
  Repository.discoverRev env path.reverse

/-- Translation of `Repository::get_status` (src/git.rs lines 65-79).
`self.git_dir.to_str().unwrap()` panics when the path is not valid
UTF-8, modelled by `Except.error ()`; a failed spawn (`None` from
`exec_cmd`) yields the all-zero default. -/
def Repository.get_status (env : Env) (repo : Repository) : Except Unit GitStatus :=
  match pathToStr repo.git_dir with
  | none => .error ()
  | some dir =>
    match env.execCmd "git" ["--git-dir", dir, "status", "--porcelain"] with
    | none => .ok {}
    | some output => .ok (parse_porcelain_output output.stdout)

/-- Translation of `Repository::get_branch` (src/git.rs lines 88-95):
read `git_dir/HEAD`, locate the last `'/'`, take everything after it
and trim trailing whitespace; any failure is `none`. -/
def rfindSlash : List Char → Option Nat
  | [] => none
  | c :: rest =>
    match rfindSlash rest with
    | some i => some (i + 1)
    | none => if c = '/' then some 0 else none

/-- Model of Rust `str::trim_end` on a character list (Lean's
`Char.isWhitespace` standing in for `char::is_whitespace`; they agree
on the ASCII whitespace relevant here). -/
def trimEndChars (cs : List Char) : List Char :=
  (cs.reverse.dropWhile Char.isWhitespace).reverse

/-- Translation of `Repository::get_branch` (src/git.rs lines 88-95);
`rfind('/')` is `rfindSlash`, the slice `[start + 1..]` is
`List.drop (i + 1)` (equivalent because `'/'` is a one-byte
character), and `trim_end` is `trimEndChars`. -/
def Repository.get_branch (env : Env) (repo : Repository) : Option String :=
  match env.readFile (repo.git_dir ++ [osStr "HEAD"]) with
  | none => none
  | some head_contents =>
    match rfindSlash head_contents.data with
    | none => none
    | some branch_start =>
      some (String.mk (trimEndChars (head_contents.data.drop (branch_start + 1))))

/-- The value `Repository::branch` caches (src/git.rs lines 81-86):
`get_branch`, falling back to the literal `"HEAD"`. -/
def Repository.branchValue (env : Env) (repo : Repository) : String :=
  (Repository.get_branch env repo).getD "HEAD"

/-- Translation of `Repository::get_hash` (src/git.rs lines 101-112):
same `to_str().unwrap()` panic point; a failed spawn yields `none`,
success yields the command's stdout. -/
def Repository.get_hash (env : Env) (repo : Repository) : Except Unit (Option String) :=
  match pathToStr repo.git_dir with
  | none => .error ()
  | some dir =>
    match env.execCmd "git" ["--git-dir", dir, "rev-parse", "HEAD"] with
    | none => .ok none
    | some output => .ok (some output.stdout)

/-- The mutable cache cells of a `Repository` handle (the three
`OnceCell` fields), modelled as explicit state. -/
structure RepoState where
  branchCell : Option String := none
  statusCell : Option GitStatus := none
  hashCell : Option (Option String) := none
deriving DecidableEq, Repr

/-- A call to `Repository::status` (src/git.rs lines 61-63):
`OnceCell::get_or_init` returns the cached value when present and
otherwise runs `get_status` and stores the result. The `Nat` component
counts external command invocations performed by this call. -/
def Repository.statusCall (env : Env) (repo : Repository) (st : RepoState) :
    Except Unit (GitStatus × RepoState × Nat) :=
  match st.statusCell with
  | some v => .ok (v, st, 0)
  | none =>
    match Repository.get_status env repo with
    | .ok v => .ok (v, { st with statusCell := some v }, 1)
    | .error e => .error e

/-- A call to `Repository::hash` (src/git.rs lines 97-99), with the
same cache discipline and invocation count as `statusCall`. -/
def Repository.hashCall (env : Env) (repo : Repository) (st : RepoState) :
    Except Unit (Option String × RepoState × Nat) :=
  match st.hashCell with
  | some v => .ok (v, st, 0)
  | none =>
    match Repository.get_hash env repo with
    | .ok v => .ok (v, { st with hashCell := some v }, 1)
    | .error e => .error e

/-- A call to `Repository::branch` (src/git.rs lines 81-86); the `Nat`
component counts head-file reads (underlying computations). -/
def Repository.branchCall (env : Env) (repo : Repository) (st : RepoState) :
    String × RepoState × Nat :=
  match st.branchCell with
  | some v => (v, st, 0)
  | none =>
    let v := Repository.branchValue env repo
    (v, { st with branchCell := some v }, 1)

/-- The chain of ancestor-or-self directories of a reversed path:
the path itself, then each successive parent, ending with the root. -/
def ancestorsRev : List OsStr → List OsPath
  | [] => [[]]
  | c :: r => (c :: r).reverse :: ancestorsRev r

/-- The chain of ancestor-or-self directories of a path, outermost
(the path itself) first, the filesystem root last. -/
def ancestorsOrSelf (p : OsPath) : List OsPath :=
  ancestorsRev p.reverse

/-- An atomic unit of rendered output. Modelled from the spec: the
`Segment` type lives outside the verified sources; per §3 it is a
(text, style-token) pair with the style token opaque. -/
structure Segment where
  text : String
  style : Option String
deriving DecidableEq, Repr

/-- A template evaluator. Modelled from the spec: `StringFormatter`
lives outside the verified sources; per §4.3 it takes a format string
and a variable resolver and produces segments, or fails. The renderer
definitions below are parametric in it. -/
abbrev TemplateEval := String → (String → Option String) → Option (List Segment)

/-- Translation of `format_text` (src/modules/git_status.rs lines
83-96), with the external `StringFormatter` machinery abstracted into
the `F` parameter. -/
def format_text (F : TemplateEval) (format_str : String) (config_path : String)
    (mapper : String → Option String) : Option (List Segment) :=
  F format_str mapper

/-- Translation of `format_count` (src/modules/git_status.rs lines
98-107): a zero count yields no segments at all; otherwise the
mini-format is evaluated with the single variable `count` bound to the
decimal count. -/
def format_count (F : TemplateEval) (format_str : String) (config_path : String)
    (count : Nat) : Option (List Segment) :=
  if count = 0 then none
  else
    format_text F format_str config_path
      (fun var => if var = "count" then some (toString count) else none)

/-- Per-category mini-format strings of the git_status configuration.
Modelled from the spec: `GitStatusConfig` is loaded by the excluded
configuration layer; only the fields the renderer reads appear. -/
structure GitStatusConfig where
  format : String
  style : String
  stashed : String
  ahead : String
  behind : String
  conflicted : String
  deleted : String
  renamed : String
  modified : String
  staged : String
  untracked : String
deriving DecidableEq, Repr

/-- Translation of the closure passed to `map_variables_to_segments`
in `module` (src/modules/git_status.rs lines 40-62): each status
variable is routed to `format_count` with its configured mini-format
and a count taken from the status — including the line
`"behind" => format_count(config.behind, "git_status.behind", status.ahead)`,
which passes the ahead count. -/
def variableSegments (F : TemplateEval) (config : GitStatusConfig)
    (status : GitStatus) (var : String) : Option (List Segment) :=
  if var = "stashed" then
    format_count F config.stashed "git_status.stashed" status.stashed
  else if var = "ahead" then
    format_count F config.ahead "git_status.ahead" status.ahead
  else if var = "behind" then
    format_count F config.behind "git_status.behind" status.ahead
  else if var = "conflicted" then
    format_count F config.conflicted "git_status.conflicted" status.conflicted
  else if var = "deleted" then
    format_count F config.deleted "git_status.deleted" status.deleted
  else if var = "renamed" then
    format_count F config.renamed "git_status.renamed" status.renamed
  else if var = "modified" then
    format_count F config.modified "git_status.modified" status.modified
  else if var = "staged" then
    format_count F config.staged "git_status.staged" status.staged
  else if var = "untracked" then
    format_count F config.untracked "git_status.untracked" status.untracked
  else none

/-- Translation of the tail of `module` (src/modules/git_status.rs
lines 23-81): no repository means no module; otherwise the outcome of
the whole formatter pipeline (`parsed`, here an explicit argument since
the formatter is external) is inspected — an error, or a successful but
empty segment list, yields nothing, and only a non-empty segment list
is returned. -/
def moduleSegments (repoResult : Option Repository)
    (parsed : Except String (List Segment)) : Option (List Segment) :=
  match repoResult with
  | none => none
  | some _ =>
    match parsed with
    | .ok segments => if segments.isEmpty then none else some segments
    | .error _ => none


lemma increment_git_status_S (st : GitStatus) : increment_git_status st 'S' = st := rfl

lemma increment_untouched (st : GitStatus) (c : Char) :
    (increment_git_status st c).stashed = st.stashed ∧
    (increment_git_status st c).unmerged = st.unmerged ∧
    (increment_git_status st c).ahead = st.ahead ∧
    (increment_git_status st c).behind = st.behind ∧
    (increment_git_status st c).diverged = st.diverged ∧
    (increment_git_status st c).staged = st.staged ∧
    (increment_git_status st c).conflicted = st.conflicted := by
  unfold increment_git_status
  split_ifs <;> exact ⟨rfl, rfl, rfl, rfl, rfl, rfl, rfl⟩

lemma parse_line_step_untouched (st : GitStatus) (l : List Char) :
    (parse_line_step st l).stashed = st.stashed ∧
    (parse_line_step st l).unmerged = st.unmerged ∧
    (parse_line_step st l).ahead = st.ahead ∧
    (parse_line_step st l).behind = st.behind ∧
    (parse_line_step st l).diverged = st.diverged ∧
    (parse_line_step st l).staged = st.staged := by
  unfold parse_line_step
  dsimp only
  split
  · exact ⟨rfl, rfl, rfl, rfl, rfl, rfl⟩
  · rw [increment_git_status_S]
    obtain ⟨h1, h2, h3, h4, h5, h6, _⟩ := increment_untouched st (l.getD 1 ' ')
    exact ⟨h1, h2, h3, h4, h5, h6⟩

lemma foldl_untouched (ls : List (List Char)) (st : GitStatus) :
    (ls.foldl parse_line_step st).stashed = st.stashed ∧
    (ls.foldl parse_line_step st).unmerged = st.unmerged ∧
    (ls.foldl parse_line_step st).ahead = st.ahead ∧
    (ls.foldl parse_line_step st).behind = st.behind ∧
    (ls.foldl parse_line_step st).diverged = st.diverged ∧
    (ls.foldl parse_line_step st).staged = st.staged := by
  induction ls generalizing st with
  | nil => exact ⟨rfl, rfl, rfl, rfl, rfl, rfl⟩
  | cons l ls ih =>
    simp only [List.foldl_cons]
    obtain ⟨i1, i2, i3, i4, i5, i6⟩ := ih (parse_line_step st l)
    obtain ⟨s1, s2, s3, s4, s5, s6⟩ := parse_line_step_untouched st l
    exact ⟨i1.trans s1, i2.trans s2, i3.trans s3, i4.trans s4, i5.trans s5, i6.trans s6⟩

/-- C10: the parser can only ever touch untracked, added, modified,
renamed, deleted and conflicted: for every input listing, the stashed,
unmerged, ahead, behind, diverged and staged counts of the summary
returned by `parse_porcelain_output` are zero (the `'S'` increment in
the non-conflict branch matches no table entry and changes nothing). -/
theorem parse_porcelain_output_only_parser_categories (s : String) :
    (parse_porcelain_output s).stashed = 0 ∧
    (parse_porcelain_output s).unmerged = 0 ∧
    (parse_porcelain_output s).ahead = 0 ∧
    (parse_porcelain_output s).behind = 0 ∧
    (parse_porcelain_output s).diverged = 0 ∧
    (parse_porcelain_output s).staged = 0 :=
  foldl_untouched (rustLines s) {}

lemma parse_line_step_conflicted (st : GitStatus) (l : List Char) :
    (parse_line_step st l).conflicted
      = st.conflicted + (if l.getD 0 ' ' = l.getD 1 ' ' then 1 else 0) := by
  unfold parse_line_step
  dsimp only
  split_ifs with h
  · rfl
  · rw [increment_git_status_S]
    exact (increment_untouched st (l.getD 1 ' ')).2.2.2.2.2.2

lemma foldl_conflicted (ls : List (List Char)) (st : GitStatus) :
    (ls.foldl parse_line_step st).conflicted
      = st.conflicted + ls.countP (fun l => decide (l.getD 0 ' ' = l.getD 1 ' ')) := by
  induction ls generalizing st with
  | nil => simp
  | cons l ls ih =>
    simp only [List.foldl_cons, List.countP_cons, ih (parse_line_step st l),
      parse_line_step_conflicted st l, decide_eq_true_eq]
    split_ifs <;> omega

/-- C3 (amended): in `parse_porcelain_output` a line increments
`conflicted` exactly when its first two characters (missing characters
defaulting to space) are identical, whether or not they are spaces: the
conflicted count equals the number of such lines, so an empty line, or
a line whose first two characters are both spaces, is itself counted as
conflicted rather than contributing to no category. -/
theorem parse_porcelain_output_conflicted_eq_equal_pairs (s : String) :
    (parse_porcelain_output s).conflicted
      = (rustLines s).countP (fun l => decide (l.getD 0 ' ' = l.getD 1 ' ')) := by
  have h := foldl_conflicted (rustLines s) {}
  simpa [parse_porcelain_output] using h

/-- C3 (counterexample): the claim says a line whose first two
characters are both spaces, or an empty line, contributes to no
category; in fact a line reading `"  x"` is counted as conflicted, and
so is the single empty line of `"\n"`. -/
theorem parse_conflict_space_line_counterexample :
    parse_porcelain_output "  x" = { conflicted := 1 } ∧
    parse_porcelain_output "\n" = { conflicted := 1 } := by decide

/-- C2: on the listing `"M a\nMM b\nA c\n?? d\n"` the code returns
conflicted = 2 with every other count zero — not the claimed
modified = 2, added = 1, untracked = 1 — and on the near-identical
input of its own unit test (src/git.rs lines 178-194) it returns
conflicted = 1, contradicting that test's expected value, which is the
very summary the claim describes. -/
theorem parse_porcelain_output_claim_input_diverges :
    parse_porcelain_output "M a\nMM b\nA c\n?? d\n" = { conflicted := 2 } ∧
    parse_porcelain_output "M src/prompt.rs\nMM src/main.rs\nA src/formatter.rs\n? README.md"
      = { conflicted := 1 } ∧
    ({ conflicted := 1 } : GitStatus) ≠ { modified := 2, added := 1, untracked := 1 } ∧
    ({ conflicted := 2 } : GitStatus) ≠ { modified := 2, added := 1, untracked := 1 } := by
  decide

/-- C4 (counterexample): the claim says the core operations never
panic for any repository path; but on a handle whose metadata
directory path is not valid UTF-8, `get_status` (and hence the first
`status()` call) and `get_hash` hit `to_str().unwrap()` on `None` and
panic, modelled by `Except.error ()`. -/
theorem status_panics_on_non_utf8_path :
    Repository.get_status ⟨fun _ _ => some ⟨""⟩, fun _ => none, fun _ => false⟩
        ⟨[⟨false, "zdir"⟩], []⟩ = .error () ∧
    Repository.get_hash ⟨fun _ _ => some ⟨""⟩, fun _ => none, fun _ => false⟩
        ⟨[⟨false, "zdir"⟩], []⟩ = .error () ∧
    Repository.statusCall ⟨fun _ _ => some ⟨""⟩, fun _ => none, fun _ => false⟩
        ⟨[⟨false, "zdir"⟩], []⟩ {} = .error () := by
  exact ⟨rfl, rfl, rfl⟩

/-- C4 (amended): provided the handle's metadata directory path is
valid UTF-8, `get_status` and `get_hash` never panic — they return a
value for every environment, including failing or absent external
commands. (The remaining core operations — `discover`, `branchValue`,
`parse_porcelain_output` — are total functions of the embedding and
cannot panic for any input.) -/
theorem probe_no_panic_for_utf8_paths (env : Env) (repo : Repository) (d : String)
    (hd : pathToStr repo.git_dir = some d) :
    (∃ v, Repository.get_status env repo = .ok v) ∧
    (∃ h, Repository.get_hash env repo = .ok h) := by
  unfold Repository.get_status Repository.get_hash
  rw [hd]
  dsimp only
  constructor
  · cases hcmd : env.execCmd "git" ["--git-dir", d, "status", "--porcelain"] <;>
      exact ⟨_, rfl⟩
  · cases hcmd : env.execCmd "git" ["--git-dir", d, "rev-parse", "HEAD"] <;>
      exact ⟨_, rfl⟩

theorem probe_no_panic_for_utf8_paths_witness :
    (∃ v, Repository.get_status ⟨fun _ _ => none, fun _ => none, fun _ => false⟩
        ⟨[osStr ".git"], []⟩ = .ok v) ∧
    (∃ h, Repository.get_hash ⟨fun _ _ => none, fun _ => none, fun _ => false⟩
        ⟨[osStr ".git"], []⟩ = .ok h) :=
  probe_no_panic_for_utf8_paths _ _ _ rfl

/-- C8: soft failure of the external command is recovered locally:
whenever the command collaborator returns nothing (spawn failure),
`get_status` yields the all-zero default summary and `get_hash` yields
`none`, and neither propagates an error (both results are `.ok`). -/
theorem spawn_failure_yields_defaults (env : Env) (repo : Repository) (d : String)
    (hd : pathToStr repo.git_dir = some d)
    (hc : ∀ c a, env.execCmd c a = none) :
    Repository.get_status env repo = .ok
      { untracked := 0, added := 0, modified := 0, renamed := 0, deleted := 0,
        stashed := 0, unmerged := 0, ahead := 0, behind := 0, diverged := 0,
        conflicted := 0, staged := 0 } ∧
    Repository.get_hash env repo = .ok none := by
  unfold Repository.get_status Repository.get_hash
  rw [hd]
  dsimp only
  rw [hc, hc]
  exact ⟨rfl, rfl⟩

theorem spawn_failure_yields_defaults_witness :
    Repository.get_status ⟨fun _ _ => none, fun _ => none, fun _ => false⟩
        ⟨[osStr ".git"], []⟩ = .ok
      { untracked := 0, added := 0, modified := 0, renamed := 0, deleted := 0,
        stashed := 0, unmerged := 0, ahead := 0, behind := 0, diverged := 0,
        conflicted := 0, staged := 0 } ∧
    Repository.get_hash ⟨fun _ _ => none, fun _ => none, fun _ => false⟩
        ⟨[osStr ".git"], []⟩ = .ok none :=
  spawn_failure_yields_defaults _ _ _ rfl (fun _ _ => rfl)

lemma rfindSlash_none {cs : List Char} (h : '/' ∉ cs) : rfindSlash cs = none := by
  induction cs with
  | nil => rfl
  | cons c rest ih =>
    simp only [List.mem_cons, not_or] at h
    have hrest : rfindSlash rest = none := ih h.2
    simp [rfindSlash, hrest, Ne.symm h.1]

lemma rfindSlash_last (u t : List Char) (h : '/' ∉ t) :
    rfindSlash (u ++ '/' :: t) = some u.length := by
  induction u with
  | nil => simp [rfindSlash, rfindSlash_none h]
  | cons c u ih => simp [rfindSlash, ih]

lemma drop_append_cons (u t : List Char) (c : Char) :
    (u ++ c :: t).drop (u.length + 1) = t := by
  induction u with
  | nil => simp
  | cons a u ih =>
    simp only [List.cons_append, List.length_cons, List.drop_succ_cons]
    exact ih

/-- C5: `branchValue` (the value `branch()` computes and caches) reads
the metadata directory's HEAD file, takes everything after the last
`/` — the unique suffix preceded by a `/` and containing no further
`/` — and trims trailing whitespace; on `"ref: refs/heads/main\n"` it
is `"main"`, and if the file is unreadable or contains no `/` it is the
literal `"HEAD"`. -/
theorem branch_correct (env : Env) (repo : Repository) :
    (env.readFile (repo.git_dir ++ [osStr "HEAD"]) = none →
      Repository.branchValue env repo = "HEAD") ∧
    (∀ s, env.readFile (repo.git_dir ++ [osStr "HEAD"]) = some s →
      ('/' ∉ s.data → Repository.branchValue env repo = "HEAD") ∧
      (∀ u t, s.data = u ++ '/' :: t → '/' ∉ t →
        Repository.branchValue env repo = String.mk (trimEndChars t))) ∧
    (env.readFile (repo.git_dir ++ [osStr "HEAD"]) = some "ref: refs/heads/main\n" →
      Repository.branchValue env repo = "main") := by
  refine ⟨?_, ?_, ?_⟩
  · intro h
    unfold Repository.branchValue Repository.get_branch
    rw [h]
    rfl
  · intro s hs
    constructor
    · intro hslash
      unfold Repository.branchValue Repository.get_branch
      rw [hs]
      dsimp only
      rw [rfindSlash_none hslash]
      rfl
    · intro u t hdata ht
      unfold Repository.branchValue Repository.get_branch
      rw [hs]
      dsimp only
      rw [hdata, rfindSlash_last u t ht]
      dsimp only
      rw [drop_append_cons]
      rfl
  · intro h
    unfold Repository.branchValue Repository.get_branch
    rw [h]
    decide

theorem branch_correct_witness :
    Repository.branchValue ⟨fun _ _ => none, fun _ => some "ref: refs/heads/main\n",
        fun _ => false⟩ ⟨[osStr ".git"], []⟩ = "main" ∧
    Repository.branchValue ⟨fun _ _ => none, fun _ => none, fun _ => false⟩
        ⟨[osStr ".git"], []⟩ = "HEAD" ∧
    Repository.branchValue ⟨fun _ _ => none, fun _ => some "nope", fun _ => false⟩
        ⟨[osStr ".git"], []⟩ = "HEAD" ∧
    Repository.branchValue ⟨fun _ _ => none, fun _ => some "a/b", fun _ => false⟩
        ⟨[osStr ".git"], []⟩ = String.mk (trimEndChars ['b']) := by
  refine ⟨?_, ?_, ?_, ?_⟩
  · exact (branch_correct _ _).2.2 rfl
  · exact (branch_correct _ _).1 rfl
  · exact ((branch_correct _ _).2.1 "nope" rfl).1 (by decide)
  · exact ((branch_correct _ _).2.1 "a/b" rfl).2 ['a'] ['b'] (by decide) (by decide)

lemma statusCall_cached (env : Env) (repo : Repository) (st : RepoState) (v : GitStatus)
    (h : st.statusCell = some v) :
    Repository.statusCall env repo st = .ok (v, st, 0) := by
  simp [Repository.statusCall, h]

lemma hashCall_cached (env : Env) (repo : Repository) (st : RepoState) (v : Option String)
    (h : st.hashCell = some v) :
    Repository.hashCall env repo st = .ok (v, st, 0) := by
  simp [Repository.hashCall, h]

lemma branchCall_cached (env : Env) (repo : Repository) (st : RepoState) (v : String)
    (h : st.branchCell = some v) :
    Repository.branchCall env repo st = (v, st, 0) := by
  simp [Repository.branchCall, h]

lemma statusCall_ok (env : Env) (repo : Repository) (st0 : RepoState)
    (v : GitStatus) (st1 : RepoState) (n : Nat)
    (h : Repository.statusCall env repo st0 = .ok (v, st1, n)) :
    st1.statusCell = some v ∧ n ≤ 1 := by
  unfold Repository.statusCall at h
  cases hc : st0.statusCell with
  | some v0 =>
    rw [hc] at h
    simp only [Except.ok.injEq, Prod.mk.injEq] at h
    obtain ⟨h1, h2, h3⟩ := h
    subst h1 h2
    exact ⟨hc, by omega⟩
  | none =>
    rw [hc] at h
    cases hg : Repository.get_status env repo with
    | error e => rw [hg] at h; simp at h
    | ok v0 =>
      rw [hg] at h
      simp only [Except.ok.injEq, Prod.mk.injEq] at h
      obtain ⟨h1, h2, h3⟩ := h
      subst h1 h2
      exact ⟨rfl, by omega⟩

lemma hashCall_ok (env : Env) (repo : Repository) (st0 : RepoState)
    (v : Option String) (st1 : RepoState) (n : Nat)
    (h : Repository.hashCall env repo st0 = .ok (v, st1, n)) :
    st1.hashCell = some v ∧ n ≤ 1 := by
  unfold Repository.hashCall at h
  cases hc : st0.hashCell with
  | some v0 =>
    rw [hc] at h
    simp only [Except.ok.injEq, Prod.mk.injEq] at h
    obtain ⟨h1, h2, h3⟩ := h
    subst h1 h2
    exact ⟨hc, by omega⟩
  | none =>
    rw [hc] at h
    cases hg : Repository.get_hash env repo with
    | error e => rw [hg] at h; simp at h
    | ok v0 =>
      rw [hg] at h
      simp only [Except.ok.injEq, Prod.mk.injEq] at h
      obtain ⟨h1, h2, h3⟩ := h
      subst h1 h2
      exact ⟨rfl, by omega⟩

lemma branchCall_result (env : Env) (repo : Repository) (st0 : RepoState)
    (v : String) (st1 : RepoState) (n : Nat)
    (h : Repository.branchCall env repo st0 = (v, st1, n)) :
    st1.branchCell = some v ∧ n ≤ 1 := by
  unfold Repository.branchCall at h
  cases hc : st0.branchCell with
  | some v0 =>
    rw [hc] at h
    simp only [Prod.mk.injEq] at h
    obtain ⟨h1, h2, h3⟩ := h
    subst h1 h2
    exact ⟨hc, by omega⟩
  | none =>
    rw [hc] at h
    simp only [Prod.mk.injEq] at h
    obtain ⟨h1, h2, h3⟩ := h
    subst h1 h2
    exact ⟨rfl, by omega⟩

/-- C7: each of branch, hash and status performs its underlying
computation at most once per handle: any successful call performs at
most one underlying computation (command invocation or file read), and
every subsequent call on the resulting state performs zero underlying
computations and returns the same value with the state unchanged. -/
theorem memoize_once (env : Env) (repo : Repository) (st0 : RepoState) :
    (∀ v st1 n, Repository.statusCall env repo st0 = .ok (v, st1, n) →
      n ≤ 1 ∧ Repository.statusCall env repo st1 = .ok (v, st1, 0)) ∧
    (∀ v st1 n, Repository.hashCall env repo st0 = .ok (v, st1, n) →
      n ≤ 1 ∧ Repository.hashCall env repo st1 = .ok (v, st1, 0)) ∧
    (∀ v st1 n, Repository.branchCall env repo st0 = (v, st1, n) →
      n ≤ 1 ∧ Repository.branchCall env repo st1 = (v, st1, 0)) := by
  refine ⟨?_, ?_, ?_⟩
  · intro v st1 n h
    obtain ⟨hcell, hn⟩ := statusCall_ok env repo st0 v st1 n h
    exact ⟨hn, statusCall_cached env repo st1 v hcell⟩
  · intro v st1 n h
    obtain ⟨hcell, hn⟩ := hashCall_ok env repo st0 v st1 n h
    exact ⟨hn, hashCall_cached env repo st1 v hcell⟩
  · intro v st1 n h
    obtain ⟨hcell, hn⟩ := branchCall_result env repo st0 v st1 n h
    exact ⟨hn, branchCall_cached env repo st1 v hcell⟩

theorem memoize_once_witness :
    Repository.statusCall ⟨fun _ _ => none, fun _ => none, fun _ => false⟩
        ⟨[osStr ".git"], []⟩ { statusCell := some {} }
      = .ok ({}, { statusCell := some {} }, 0) ∧
    Repository.hashCall ⟨fun _ _ => none, fun _ => none, fun _ => false⟩
        ⟨[osStr ".git"], []⟩ { hashCell := some none }
      = .ok (none, { hashCell := some none }, 0) ∧
    Repository.branchCall ⟨fun _ _ => none, fun _ => none, fun _ => false⟩
        ⟨[osStr ".git"], []⟩ { branchCell := some "main" }
      = ("main", { branchCell := some "main" }, 0) := by
  refine ⟨?_, ?_, ?_⟩
  · exact ((memoize_once _ _ { statusCell := some {} }).1 {} _ 0 rfl).2
  · exact ((memoize_once _ _ { hashCell := some none }).2.1 none _ 0 rfl).2
  · exact ((memoize_once _ _ { branchCell := some "main" }).2.2 "main" _ 0 rfl).2

lemma discoverRev_eq_find (env : Env) (r : List OsStr) :
    Repository.discoverRev env r
      = ((ancestorsRev r).find? (fun q => env.dirExists (q ++ [osStr ".git"]))).map
          (fun q => { git_dir := q ++ [osStr ".git"], root_dir := q }) := by
  induction r with
  | nil =>
    cases h : env.dirExists [osStr ".git"] <;>
      simp [Repository.discoverRev, ancestorsRev, Repository.scan, List.find?, h]
  | cons c r ih =>
    cases h : env.dirExists (r.reverse ++ [c, osStr ".git"]) <;>
      simp [Repository.discoverRev, ancestorsRev, Repository.scan, List.find?, h, ih]

lemma mem_ancestorsRev (r : List OsStr) (q : OsPath) (h : q ∈ ancestorsRev r) :
    ∃ rest, q ++ rest = r.reverse := by
  induction r with
  | nil =>
    simp [ancestorsRev] at h
    subst h
    exact ⟨[], rfl⟩
  | cons c r ih =>
    simp only [ancestorsRev, List.mem_cons] at h
    rcases h with h | h
    · subst h
      exact ⟨[], by simp⟩
    · obtain ⟨rest, hr⟩ := ih h
      refine ⟨rest ++ [c], ?_⟩
      rw [← List.append_assoc, hr]
      simp

/-- C6: `discover` walks up through the chain of ancestor-or-self
directories of the starting path and returns a handle for the first
one that has the `.git` metadata directory as a direct child, with
`root_dir` equal to that directory; it returns `none` when no
ancestor-or-self matches, and any returned `root_dir` is an
ancestor-or-self (a component prefix) of the starting path. -/
theorem discover_correct (env : Env) (p : OsPath) :
    Repository.discover env p
      = ((ancestorsOrSelf p).find? (fun q => env.dirExists (q ++ [osStr ".git"]))).map
          (fun q => { git_dir := q ++ [osStr ".git"], root_dir := q }) ∧
    ∀ r, Repository.discover env p = some r →
      (∃ rest, r.root_dir ++ rest = p) ∧
      env.dirExists (r.root_dir ++ [osStr ".git"]) = true := by
  have hmain := discoverRev_eq_find env p.reverse
  refine ⟨hmain, ?_⟩
  intro r hr
  rw [Repository.discover, hmain] at hr
  cases hfind : (ancestorsRev p.reverse).find?
      (fun q => env.dirExists (q ++ [osStr ".git"])) with
  | none => rw [hfind] at hr; simp at hr
  | some q =>
    rw [hfind] at hr
    have hr2 : ({ git_dir := q ++ [osStr ".git"], root_dir := q } : Repository) = r := by
      simpa using hr
    have hq := List.find?_some hfind
    have hmem := List.mem_of_find?_eq_some hfind
    obtain ⟨rest, hrest⟩ := mem_ancestorsRev _ _ hmem
    subst hr2
    constructor
    · exact ⟨rest, by simpa using hrest⟩
    · simpa using hq

theorem discover_correct_witness :
    Repository.discover
        ⟨fun _ _ => none, fun _ => none,
          fun q => decide (q = [osStr "a", osStr ".git"])⟩
        [osStr "a", osStr "b"]
      = some { git_dir := [osStr "a", osStr ".git"], root_dir := [osStr "a"] } ∧
    (∃ rest, ([osStr "a"] : OsPath) ++ rest = [osStr "a", osStr "b"]) ∧
    Repository.discover
        ⟨fun _ _ => none, fun _ => none, fun _ => false⟩
        [osStr "a", osStr "b"]
      = none := by
  refine ⟨by rfl, ?_, ?_⟩
  · exact ((discover_correct
      ⟨fun _ _ => none, fun _ => none,
        fun q => decide (q = [osStr "a", osStr ".git"])⟩
      [osStr "a", osStr "b"]).2 _ (by rfl)).1
  · exact (discover_correct
      ⟨fun _ _ => none, fun _ => none, fun _ => false⟩
      [osStr "a", osStr "b"]).1

/-- C1 (code evaluated at the failing input): in the variable mapping
of the git_status module the `behind` variable is routed to
`format_count` with `status.ahead` as the count, for every template
evaluator and configuration; in particular a status with behind = 1
and ahead = 0 yields no segments for `behind`, and a status with
ahead = 2 and behind = 5 renders the count 2 — contradicting the claim
that the `behind` variable is bound to the behind count. -/
theorem behind_variable_bound_to_ahead_count :
    (∀ (F : TemplateEval) (config : GitStatusConfig) (status : GitStatus),
      variableSegments F config status "behind"
        = format_count F config.behind "git_status.behind" status.ahead) ∧
    (∀ (F : TemplateEval) (config : GitStatusConfig),
      variableSegments F config { behind := 1 } "behind" = none) ∧
    (∀ (F : TemplateEval) (config : GitStatusConfig),
      variableSegments F config { ahead := 2, behind := 5 } "behind"
        = format_count F config.behind "git_status.behind" 2) :=
  ⟨fun _ _ _ => rfl, fun _ _ => rfl, fun _ _ => rfl⟩

/-- C9: the git_status module renders all-or-nothing: a format error
yields no output at all (never a partial segment list), a successful
but empty segment list also yields nothing, and whenever the module
does produce a segment list it is non-empty. -/
theorem module_all_or_nothing (repoResult : Option Repository)
    (parsed : Except String (List Segment)) :
    (∀ e, parsed = .error e → moduleSegments repoResult parsed = none) ∧
    (parsed = .ok [] → moduleSegments repoResult parsed = none) ∧
    (∀ segments, moduleSegments repoResult parsed = some segments → segments ≠ []) := by
  refine ⟨?_, ?_, ?_⟩
  · intro e he
    subst he
    cases repoResult <;> rfl
  · intro he
    subst he
    cases repoResult <;> rfl
  · intro segments hseg
    cases repoResult with
    | none => simp [moduleSegments] at hseg
    | some r =>
      cases parsed with
      | error e => simp [moduleSegments] at hseg
      | ok segs =>
        by_cases hempty : segs.isEmpty
        · simp [moduleSegments, hempty] at hseg
        · simp only [moduleSegments, if_neg hempty, Option.some.injEq] at hseg
          subst hseg
          intro hnil
          subst hnil
          exact hempty rfl

theorem module_all_or_nothing_witness :
    moduleSegments (some { git_dir := [osStr ".git"], root_dir := [] })
        (.error "format error") = none ∧
    moduleSegments (some { git_dir := [osStr ".git"], root_dir := [] })
        (.ok []) = none ∧
    ([{ text := "x", style := none }] : List Segment) ≠ [] := by
  refine ⟨?_, ?_, ?_⟩
  · exact (module_all_or_nothing _ _).1 "format error" rfl
  · exact (module_all_or_nothing _ _).2.1 rfl
  · exact (module_all_or_nothing (some { git_dir := [osStr ".git"], root_dir := [] })
      (.ok [{ text := "x", style := none }])).2.2 _ rfl
